import Mathlib

/-!
# Verification of the rust-sip-db SQL engine

A shallow embedding of the SQL pipeline of the `rust-sip-db` repository
(`src/core/types.rs`, `src/core/sql/{lexer,parser,executor,formatter}.rs`,
`src/core/storage/memory.rs`) together with theorems settling the frozen
claims about its specification.

Modelling conventions:
* Rust `i32` is modelled by `Int`; none of the verified properties exercise
  two's-complement overflow, and `i32` division (which truncates toward zero)
  is modelled by `Int.tdiv`.
* Rust `f64` appears in `executor.rs` through the variant `DataType::Float`,
  which `types.rs` does not actually declare (the crate as given does not
  compile).  The variant is included here so that the executor's own match
  arms are expressible; its payload is modelled by `Rat`.  No float value is
  constructible through the parser, so no verified property depends on
  floating-point rounding.
* Rust `String` indices: the lexer bounds its cursor by `input.len()` (bytes)
  but reads characters with `chars().nth(position)`.  The embedding works on
  `List Char` with character positions; the two agree on ASCII input, and all
  inputs appearing in the claims are ASCII.
* Imperative functions that mutate a table in place are embedded in
  state-passing style: they return the error flag together with the state as
  it is when the function returns, so "a failed call leaves the table
  unchanged" is expressible.
* Rust panics (out-of-bounds indexing) cannot occur on the executions covered
  by the theorems; where the source indexes a slice, the embedding uses
  `List.getD` with a default noted in a comment.
-/

namespace SipDb

/-! ## Data model (`src/core/types.rs`) -/

/-- `enum DataType` of `types.rs`.  The source file declares only `Int`,
`Varchar` and `Null`; `executor.rs` additionally matches on a `Float`
variant, included here (with a `Rat` payload) so that the executor code is
expressible. -/
inductive DataType where
  | int (n : Int)
  | varchar (s : String)
  | float (q : Rat)
  | null
deriving Repr, DecidableEq

/-- `enum ColumnType` of `types.rs`: `Int(Option<usize>)` and
`Varchar(usize)`. -/
inductive ColumnType where
  | int (bits : Option Nat)
  | varchar (max_len : Nat)
deriving Repr, DecidableEq

/-- `struct Column` of `types.rs`. -/
structure Column where
  name : String
  data_type : ColumnType
  nullable : Bool
  primary_key : Bool
deriving Repr, DecidableEq

/-- `struct Table` of `types.rs`. -/
structure Table where
  name : String
  columns : List Column
  rows : List (List DataType)
deriving Repr, DecidableEq

/-- `enum TypeError` of `types.rs`. -/
inductive TypeError where
  | typeMismatch (expected : ColumnType) (actual : DataType)
  | stringLengthExceeded (max_length actual_length : Nat)
  | nullValue (field : String)
  | primaryKeyViolation (entry : String)
deriving Repr, DecidableEq

/-- `enum DbError` of `src/core/error.rs` (payloads reduced to the message
strings carried by the source). -/
inductive DbError where
  | ioError (msg : String)
  | serialization (msg : String)
  | tableError (msg : String)
  | typeError (e : TypeError)
  | sqlError (msg : String)
  | transactionError (msg : String)
deriving Repr, DecidableEq

/-- Decidable equality of `Except` results, so that concrete executions can
be checked by `decide`. -/
instance {ε α : Type} [DecidableEq ε] [DecidableEq α] : DecidableEq (Except ε α)
  | .ok a, .ok b =>
    if h : a = b then .isTrue (by rw [h]) else .isFalse (by simp [h])
  | .ok _, .error _ => .isFalse (by simp)
  | .error _, .ok _ => .isFalse (by simp)
  | .error a, .error b =>
    if h : a = b then .isTrue (by rw [h]) else .isFalse (by simp [h])

/-- `DataType::matches_column_type`.  `s.len()` counts bytes in Rust and
characters here; they agree on ASCII text. -/
def DataType.matches_column_type : DataType → ColumnType → Bool
  | .int _, .int _ => true
  | .varchar s, .varchar max_len => s.length ≤ max_len
  | .null, _ => true
  | _, _ => false

/-- The `Display` impl for `DataType` in `types.rs` (`Int` and `Varchar`
print their payload, `Null` prints the string `NULL`).  The `Float` case is
reachable only through the non-compiling executor arm; its rendering is a
stand-in. -/
def DataType.display : DataType → String
  | .int n => toString n
  | .varchar s => s
  | .float q => toString q
  | .null => "NULL"

/-- `Table::check_primary_key_constraint`.  The source indexes
`row[pk_index]` and `existing_row[pk_index]`; both indices are in range on
every call made by `validate_row` (which checks the arity first), and
`List.getD` with default `null` stands in for the panicking index. -/
def Table.check_primary_key_constraint (t : Table) (row : List DataType) :
    Except TypeError Unit :=
  match t.columns.findIdx? (fun col => col.primary_key) with
  | none => .ok ()
  | some pk_index =>
    let pk_value := row.getD pk_index .null
    if pk_value = .null then .ok ()
    else if t.rows.any (fun existing_row => existing_row.getD pk_index .null = pk_value) then
      .error (.primaryKeyViolation pk_value.display)
    else .ok ()

/-- The per-column loop of `Table::validate_row`: first type compatibility,
then the non-null check, then the primary-key-not-null check, in source
order, failing at the first violating column. -/
def rowColumnCheck : List (DataType × Column) → Except TypeError Unit
  | [] => .ok ()
  | (value, column) :: rest =>
    if ¬ value.matches_column_type column.data_type then
      .error (.typeMismatch column.data_type value)
    else if ¬ column.nullable ∧ value = .null then
      .error (.nullValue column.name)
    else if column.primary_key ∧ value = .null then
      .error (.nullValue column.name)
    else rowColumnCheck rest

/-- `Table::validate_row`. -/
def Table.validate_row (t : Table) (row : List DataType) : Except TypeError Unit := do
  if row.length ≠ t.columns.length then
    throw (.typeMismatch (.int none) .null)
  rowColumnCheck (row.zip t.columns)
  t.check_primary_key_constraint row

/-- `Table::insert_row`: validate, then push.  State-passing embedding: the
second component is the table as the function leaves it. -/
def Table.insert_row (t : Table) (row : List DataType) :
    Except TypeError Unit × Table :=
  match t.validate_row row with
  | .error e => (.error e, t)
  | .ok _ => (.ok (), { t with rows := t.rows ++ [row] })

/-! ## Executor: INSERT paths (`src/core/sql/executor.rs`) -/

/-- The pre-insert constraint loop of the `Insert` arm (lines 61–71): for
each column, first the primary-key-null check, then the non-null check;
the first violating column aborts.  Returns the name of that column. -/
def insertNullCheck : List (Column × DataType) → Option String
  | [] => none
  | (col, value) :: rest =>
    if col.primary_key ∧ value = .null then some col.name
    else if ¬ col.nullable ∧ value = .null then some col.name
    else insertNullCheck rest

/-- The `SqlStatement::Insert` arm of `SqlExecutor::execute`, applied to the
(existing) target table: arity check, per-column null checks, then
`Storage::insert_row`, which delegates to `Table::insert_row`.  The second
component is the table as the statement leaves it. -/
def execInsert (t : Table) (values : List DataType) :
    Except DbError Unit × Table :=
  if values.length ≠ t.columns.length then
    (.error (.sqlError "值的数量与表列数不匹配"), t)
  else
    match insertNullCheck (t.columns.zip values) with
    | some colName => (.error (.typeError (.nullValue colName)), t)
    | none =>
      match t.insert_row values with
      | (.error e, t') => (.error (.typeError e), t')
      | (.ok _, t') => (.ok (), t')

/-- The full-row construction loop of the `InsertWithColumns` arm
(executor.rs lines 136–143): starting from a row of `NULL`s, write the i-th
supplied value into the position of the first table column whose name is the
i-th listed column name. -/
def buildFullRowAux (tcols : List Column) :
    List (String × DataType) → List DataType → List DataType
  | [], full_row => full_row
  | (col, v) :: rest, full_row =>
    match tcols.findIdx? (fun c => c.name = col) with
    | some col_index => buildFullRowAux tcols rest (full_row.set col_index v)
    | none => buildFullRowAux tcols rest full_row

/-- `full_row` as built by the `InsertWithColumns` arm for one supplied row:
`vec![DataType::Null; table_columns.len()]` updated at the named columns. -/
def buildFullRow (tcols : List Column) (columns : List String)
    (row_values : List DataType) : List DataType :=
  buildFullRowAux tcols (columns.zip row_values)
    (List.replicate tcols.length .null)

/-- The constraint loop of the `InsertWithColumns` arm (lines 146–156):
the non-null check before the primary-key check in this arm. -/
def insertWithColumnsNullCheck : List (Column × DataType) → Option String
  | [] => none
  | (col, value) :: rest =>
    if ¬ col.nullable ∧ value = .null then some col.name
    else if col.primary_key ∧ value = .null then some col.name
    else insertWithColumnsNullCheck rest

/-- The per-row body of the `InsertWithColumns` loop: arity check against
the column-name list, full-row construction, the non-null / primary-key
checks of lines 146–156, then `Table::insert_row`. -/
def execInsertWithColumnsRow (t : Table) (columns : List String)
    (row_values : List DataType) : Except DbError Unit × Table :=
  if row_values.length ≠ columns.length then
    (.error (.sqlError "值的数量与列名数量不匹配"), t)
  else
    let full_row := buildFullRow t.columns columns row_values
    match insertWithColumnsNullCheck (t.columns.zip full_row) with
    | some colName => (.error (.typeError (.nullValue colName)), t)
    | none =>
      match t.insert_row full_row with
      | (.error e, t') => (.error (.typeError e), t')
      | (.ok _, t') => (.ok (), t')

/-- The row loop of the `InsertWithColumns` arm: each supplied row is
remapped and inserted in order; the first failure stops the loop, keeping
previously inserted rows. -/
def execInsertWithColumnsLoop (columns : List String) (t : Table) :
    List (List DataType) → Except DbError Unit × Table
  | [] => (.ok (), t)
  | row_values :: rest =>
    match execInsertWithColumnsRow t columns row_values with
    | (.error e, t') => (.error e, t')
    | (.ok _, t') => execInsertWithColumnsLoop columns t' rest

/-- The `SqlStatement::InsertWithColumns` arm applied to the (existing)
target table: every listed column name must exist in the table, then the
row loop runs. -/
def execInsertWithColumns (t : Table) (columns : List String)
    (rows : List (List DataType)) : Except DbError Unit × Table :=
  match columns.find? (fun col => ¬ t.columns.any (fun c => c.name = col)) with
  | some col =>
    (.error (.sqlError ("列 " ++ col ++ " 在表 " ++ t.name ++ " 中不存在")), t)
  | none => execInsertWithColumnsLoop columns t rows

/-! ## Statement algebra (`src/core/sql/mod.rs`) -/

/-- `enum Operator` of `mod.rs`. -/
inductive Operator where
  | eq | ne | gt | lt | ge | le | isNull | isNotNull
deriving Repr, DecidableEq

/-- `enum ArithmeticOperator` of `mod.rs`. -/
inductive ArithmeticOperator where
  | add | subtract | multiply | divide
deriving Repr, DecidableEq

/-- `enum Expression` of `mod.rs`. -/
inductive Expression where
  | literal (value : DataType)
  | column (name : String)
  | binary (left : Expression) (operator : ArithmeticOperator) (right : Expression)
deriving Repr, DecidableEq

/-- `enum WhereClause` of `mod.rs`.  Note: the enum declares only `Simple`,
`And` and `Or`; `executor.rs` also matches a `WhereClause::Expression`
variant that does not exist in this declaration (dead, non-compiling code),
and the parser never produces such a clause. -/
inductive WhereClause where
  | simple (column : String) (operator : Operator) (value : DataType)
  | and (left : WhereClause) (right : WhereClause)
  | or (left : WhereClause) (right : WhereClause)
deriving Repr, DecidableEq

/-- `enum SortDirection` of `mod.rs`. -/
inductive SortDirection where
  | asc | desc
deriving Repr, DecidableEq

/-- `struct OrderBy` of `mod.rs`. -/
structure OrderBy where
  column : String
  direction : SortDirection
deriving Repr, DecidableEq

/-! ## Expression evaluation (`src/core/sql/executor.rs`) -/

/-- The shared arithmetic of the `Expression::Binary` arms of both
`SqlExecutor::evaluate_expression` (lines 425–486) and
`evaluate_expression_without_storage` (lines 700–760): the two match
expressions are textually identical.  `i32` division truncates toward zero
(`Int.tdiv`); a `NULL` operand reaches the catch-all arm and fails with the
unsupported-operand-type error. -/
def binaryArith (operator : ArithmeticOperator) :
    DataType → DataType → Except DbError DataType
  | .int a, .int b =>
    match operator with
    | .add => .ok (.int (a + b))
    | .subtract => .ok (.int (a - b))
    | .multiply => .ok (.int (a * b))
    | .divide =>
      if b = 0 then .error (.sqlError "除数不能为零")
      else .ok (.int (a.tdiv b))
  | .float a, .float b =>
    match operator with
    | .add => .ok (.float (a + b))
    | .subtract => .ok (.float (a - b))
    | .multiply => .ok (.float (a * b))
    | .divide =>
      if b = 0 then .error (.sqlError "除数不能为零")
      else .ok (.float (a / b))
  | .int a, .float b =>
    let a_float : Rat := (a : Rat)
    match operator with
    | .add => .ok (.float (a_float + b))
    | .subtract => .ok (.float (a_float - b))
    | .multiply => .ok (.float (a_float * b))
    | .divide =>
      if b = 0 then .error (.sqlError "除数不能为零")
      else .ok (.float (a_float / b))
  | .float a, .int b =>
    let b_float : Rat := (b : Rat)
    match operator with
    | .add => .ok (.float (a + b_float))
    | .subtract => .ok (.float (a - b_float))
    | .multiply => .ok (.float (a * b_float))
    | .divide =>
      if b = 0 then .error (.sqlError "除数不能为零")
      else .ok (.float (a / b_float))
  | _, _ => .error (.sqlError "不支持的操作数类型")

/-- `evaluate_expression_without_storage` (executor.rs lines 670–763):
column resolution uses only the current row and its column descriptors.
The source indexes `row[col_index]` after an explicit bounds check, exactly
as embedded. -/
def evaluate_expression_without_storage (expr : Expression)
    (row : List DataType) (columns : List Column) : Except DbError DataType :=
  match expr with
  | .literal value => .ok value
  | .column name =>
    if name = "*" then .error (.sqlError "不能直接使用 * 作为表达式")
    else
      -- strip an optional `table.` qualifier (`name.split('.').nth(1)`)
      let column_name :=
        if name.data.contains '.' then
          String.mk ((name.data.splitOn '.').getD 1 name.data)
        else name
      match columns.findIdx? (fun col => col.name = column_name) with
      | none => .error (.sqlError ("列 " ++ name ++ " 未找到"))
      | some col_index =>
        match row.get? col_index with
        | some v => .ok v
        | none => .error (.sqlError ("索引超出范围: " ++ toString col_index))
  | .binary left operator right => do
    let left_value ← evaluate_expression_without_storage left row columns
    let right_value ← evaluate_expression_without_storage right row columns
    binaryArith operator left_value right_value

/-- Storage as seen by `SqlExecutor::evaluate_expression`: the catalog's
tables.  `Storage::get_table` looks a table up by name;
`get_table_by_index` enumerates in the (unspecified) `HashMap` iteration
order, modelled by the list order. -/
def getTable (storage : List Table) (name : String) : Option Table :=
  storage.find? (fun t => t.name = name)

/-- The cross-table fallback scan of the `Expression::Column` arm of
`SqlExecutor::evaluate_expression` (lines 399–413): scan every table other
than the current one for a column whose (full, unstripped) name matches, and
read the current row at that table's column index. -/
def fallbackScan (storage : List Table) (current_table : String)
    (name : String) (row_data : List DataType) : Option DataType :=
  match storage with
  | [] => none
  | table :: rest =>
    if table.name ≠ current_table then
      match table.columns.findIdx? (fun col => col.name = name) with
      | some col_index =>
        match row_data.get? col_index with
        | some v => some v
        | none => fallbackScan rest current_table name row_data
      | none => fallbackScan rest current_table name row_data
    else fallbackScan rest current_table name row_data

/-- `SqlExecutor::evaluate_expression` (executor.rs lines 365–489), with the
executor's storage modelled as the list of catalog tables. -/
def evaluate_expression (storage : List Table) (expr : Expression)
    (row : Option (List DataType)) (current_table : String) :
    Except DbError DataType :=
  match expr with
  | .literal value => .ok value
  | .column name =>
    match row with
    | none => .error (.sqlError "无法获取列值，因为没有行上下文")
    | some row_data =>
      if name = "*" then .error (.sqlError "不能直接使用 * 作为表达式")
      else
        let table_name :=
          if name.data.contains '.' then String.mk ((name.data.splitOn '.').getD 0 [])
          else current_table
        let column_name :=
          if name.data.contains '.' then String.mk ((name.data.splitOn '.').getD 1 name.data)
          else name
        let direct :=
          match getTable storage table_name with
          | some table =>
            match table.columns.findIdx? (fun col => col.name = column_name) with
            | some col_index => row_data.get? col_index
            | none => none
          | none => none
        match direct with
        | some v => .ok v
        | none =>
          if table_name = "" ∨ table_name = current_table then
            match fallbackScan storage current_table name row_data with
            | some v => .ok v
            | none => .error (.sqlError ("列 " ++ name ++ " 未找到"))
          else .error (.sqlError ("列 " ++ name ++ " 未找到"))
  | .binary left operator right => do
    let left_value ← evaluate_expression storage left row current_table
    let right_value ← evaluate_expression storage right row current_table
    binaryArith operator left_value right_value

/-! ## WHERE evaluation (`src/core/sql/executor.rs`, `evaluate_where_clause`) -/

/-- Lexicographic comparison of character lists, by code point.  This is
Rust's `Ord` for `str` (bytewise on UTF-8, which orders exactly like code
points). -/
def charListCompare : List Char → List Char → Ordering
  | [], [] => .eq
  | [], _ :: _ => .lt
  | _ :: _, [] => .gt
  | a :: as, b :: bs =>
    if a < b then .lt
    else if b < a then .gt
    else charListCompare as bs

/-- Rust's `str::cmp` on two strings. -/
def rustStrCompare (a b : String) : Ordering :=
  charListCompare a.data b.data

/-- Rust's `i64::cmp` (also `i32::cmp`). -/
def rustIntCompare (a b : Int) : Ordering :=
  if a < b then .lt else if a = b then .eq else .gt

/-- One comparison step of `evaluate_where_clause`: `Eq`/`Ne` use the
derived `PartialEq` (variant-wise equality); `Gt`/`Lt`/`Ge`/`Le` are
defined for same-variant pairs and int/float mixtures after widening and
fail with the type-mismatch error otherwise, arm for arm as in the four
match blocks of the source; `IsNull`/`IsNotNull` test the row value. -/
def applyOperator (operator : Operator) (row_value compare_value : DataType) :
    Except DbError Bool :=
  match operator with
  | .eq => .ok (row_value = compare_value)
  | .ne => .ok (row_value ≠ compare_value)
  | .gt =>
    match row_value, compare_value with
    | .int a, .int b => .ok (a > b)
    | .float a, .float b => .ok (a > b)
    | .float a, .int b => .ok (a > (b : Rat))
    | .int a, .float b => .ok ((a : Rat) > b)
    | .varchar a, .varchar b => .ok (rustStrCompare a b = .gt)
    | _, _ => .error (.sqlError "类型不匹配")
  | .lt =>
    match row_value, compare_value with
    | .int a, .int b => .ok (a < b)
    | .float a, .float b => .ok (a < b)
    | .float a, .int b => .ok (a < (b : Rat))
    | .int a, .float b => .ok ((a : Rat) < b)
    | .varchar a, .varchar b => .ok (rustStrCompare a b = .lt)
    | _, _ => .error (.sqlError "类型不匹配")
  | .ge =>
    match row_value, compare_value with
    | .int a, .int b => .ok (a ≥ b)
    | .float a, .float b => .ok (a ≥ b)
    | .float a, .int b => .ok (a ≥ (b : Rat))
    | .int a, .float b => .ok ((a : Rat) ≥ b)
    | .varchar a, .varchar b => .ok (rustStrCompare a b ≠ .lt)
    | _, _ => .error (.sqlError "类型不匹配")
  | .le =>
    match row_value, compare_value with
    | .int a, .int b => .ok (a ≤ b)
    | .float a, .float b => .ok (a ≤ b)
    | .float a, .int b => .ok (a ≤ (b : Rat))
    | .int a, .float b => .ok ((a : Rat) ≤ b)
    | .varchar a, .varchar b => .ok (rustStrCompare a b ≠ .gt)
    | _, _ => .error (.sqlError "类型不匹配")
  | .isNull => .ok (row_value = .null)
  | .isNotNull => .ok (row_value ≠ .null)

/-- `evaluate_where_clause` (executor.rs lines 544–667).  The `Simple` arm
resolves the column, indexes the row (`row[column_index]`, embedded with the
in-range access made explicit) and compares; `And`/`Or` short-circuit on the
left result exactly as the source does.  The source's
`WhereClause::Expression` arm matches a variant that `mod.rs` does not
declare and is unrepresentable. -/
def evaluate_where_clause (row : List DataType) (where_clause : WhereClause)
    (columns : List Column) : Except DbError Bool :=
  match where_clause with
  | .simple column operator value =>
    match columns.findIdx? (fun col => col.name = column) with
    | none => .error (.sqlError ("列 " ++ column ++ " 不存在"))
    | some column_index =>
      match row.get? column_index with
      | none => .error (.sqlError "索引超出范围")
      | some row_value => applyOperator operator row_value value
  | .and left right => do
    let left_result ← evaluate_where_clause row left columns
    -- 短路求值：如果左边为假，直接返回假
    if ¬ left_result then pure false
    else do
      let right_result ← evaluate_where_clause row right columns
      pure (left_result ∧ right_result)
  | .or left right => do
    let left_result ← evaluate_where_clause row left columns
    -- 短路求值：如果左边为真，直接返回真
    if left_result then pure true
    else do
      let right_result ← evaluate_where_clause row right columns
      pure (left_result ∨ right_result)

/-! ## Executor: UPDATE / DELETE / SELECT arms (`src/core/sql/executor.rs`) -/

/-- The filter condition
`where_clause.is_none() || evaluate_where_clause(row, …, columns)?` used by
the `Update`, `Delete` (implicitly) and `Select` arms: an absent clause
keeps every row. -/
def evalOptWhere (row : List DataType) (where_clause : Option WhereClause)
    (columns : List Column) : Except DbError Bool :=
  match where_clause with
  | none => pure true
  | some w => evaluate_where_clause row w columns

/-- The row-collection loop of the `Update` arm (lines 275–279): indices of
the rows satisfying the (optional) WHERE clause, evaluated against the
snapshot of the column metadata; an evaluation error aborts before any
mutation. -/
def matchingIndices (columns : List Column) (where_clause : Option WhereClause) :
    List (List DataType) → Nat → Except DbError (List Nat)
  | [], _ => .ok []
  | row :: rest, i => do
    let keep ← evalOptWhere row where_clause columns
    let others ← matchingIndices columns where_clause rest (i + 1)
    pure (if keep then i :: others else others)

/-- The assignment loop of the `Update` arm (lines 283–287) applied to one
row: each `(column_name, value)` pair overwrites the slot of the first
column with that name; a name matching no column is silently ignored. -/
def applyAssignments (columns : List Column) (set : List (String × DataType))
    (row : List DataType) : List DataType :=
  set.foldl
    (fun row cv =>
      match columns.findIdx? (fun col => col.name = cv.1) with
      | some col_index => row.set col_index cv.2
      | none => row)
    row

/-- The `SqlStatement::Update` arm (executor.rs lines 267–290): collect the
matching row indices, then rewrite each matched row in place.  No
re-validation of the rewritten rows is performed.  `rows[row_index]` is in
range for every collected index; the embedding guards the access. -/
def execUpdate (t : Table) (set : List (String × DataType))
    (where_clause : Option WhereClause) : Except DbError Unit × Table :=
  match matchingIndices t.columns where_clause t.rows 0 with
  | .error e => (.error e, t)
  | .ok rows_to_update =>
    let rows :=
      rows_to_update.foldl
        (fun rows row_index =>
          match rows.get? row_index with
          | some row => rows.set row_index (applyAssignments t.columns set row)
          | none => rows)
        t.rows
    (.ok (), { t with rows := rows })

/-- The single-pass removal walk of the `Delete` arm (lines 302–309):
matched rows are removed without reordering the survivors; an evaluation
error stops the walk, keeping the removals already made. -/
def deleteLoop (columns : List Column) (where_clause : WhereClause) :
    List (List DataType) → Except DbError Unit × List (List DataType)
  | [] => (.ok (), [])
  | row :: rest =>
    match evaluate_where_clause row where_clause columns with
    | .error e => (.error e, row :: rest)
    | .ok true => deleteLoop columns where_clause rest
    | .ok false =>
      match deleteLoop columns where_clause rest with
      | (r, rest') => (r, row :: rest')

/-- The `SqlStatement::Delete` arm (executor.rs lines 291–311): no WHERE
clause clears the row list, otherwise the removal walk runs. -/
def execDelete (t : Table) (where_clause : Option WhereClause) :
    Except DbError Unit × Table :=
  match where_clause with
  | none => (.ok (), { t with rows := [] })
  | some w =>
    match deleteLoop t.columns w t.rows with
    | (r, rows) => (r, { t with rows := rows })

/-- The projection of one row in the `Select` arm (lines 334–340): a listed
column name that matches no table column contributes the string `"NULL"`
instead of failing.  `row[index]` is in range for every row of a valid
table (`getD` stands in for the panicking index). -/
def projectRow (tcols : List Column) (display_columns : List String)
    (row : List DataType) : List String :=
  display_columns.map (fun col =>
    match tcols.findIdx? (fun c => c.name = col) with
    | some index => (row.getD index .null).display
    | none => "NULL")

/-- The row-collection loop of the `Select` arm (lines 327–344). -/
def selectRows (tcols : List Column) (is_select_all : Bool)
    (display_columns : List String) (where_clause : Option WhereClause) :
    List (List DataType) → Except DbError (List (List String))
  | [] => .ok []
  | row :: rest => do
    let keep ← evalOptWhere row where_clause tcols
    let rest' ← selectRows tcols is_select_all display_columns where_clause rest
    pure (if keep then
            (if is_select_all then row.map DataType.display
             else projectRow tcols display_columns row) :: rest'
          else rest')

/-! ## ORDER BY (`SqlExecutor::apply_order_by`, executor.rs lines 511–541) -/

/-- The value of a nonempty all-decimal-digit character run. -/
def digitsToNat (cs : List Char) : Nat :=
  cs.foldl (fun n c => n * 10 + (c.toNat - 48)) 0

/-- A digit run parsed as in Rust: `None` unless nonempty and all digits. -/
def digitsToNat? (cs : List Char) : Option Nat :=
  if cs ≠ [] ∧ cs.all Char.isDigit then some (digitsToNat cs) else none

/-- `str::parse::<i64>`: an optional `+`/`-` sign followed by at least one
decimal digit, rejected when the value overflows `i64`. -/
def parseI64 (s : String) : Option Int :=
  let (neg, digits) :=
    match s.data with
    | '-' :: ds => (true, ds)
    | '+' :: ds => (false, ds)
    | ds => (false, ds)
  match digitsToNat? digits with
  | none => none
  | some n =>
    let v : Int := if neg then -(n : Int) else (n : Int)
    if -(2 ^ 63) ≤ v ∧ v < 2 ^ 63 then some v else none

/-- The comparator body of `apply_order_by` on two cell strings: when both
parse as `i64` compare numerically (reversed for `DESC`), otherwise compare
the strings (Rust's bytewise order on UTF-8 agrees with Lean's `String`
order). -/
def cellCmp (direction : SortDirection) (a_val b_val : String) : Ordering :=
  match parseI64 a_val, parseI64 b_val with
  | some a_num, some b_num =>
    match direction with
    | .asc => rustIntCompare a_num b_num
    | .desc => rustIntCompare b_num a_num
  | _, _ =>
    match direction with
    | .asc => rustStrCompare a_val b_val
    | .desc => rustStrCompare b_val a_val

/-- The full comparator of `apply_order_by` on two result rows: compare the
cells at the sort column.  (`a[sort_col_index]` is in range for every row of
the result set; `getD` stands in for the panicking index.) -/
def rowLe (sort_col_index : Nat) (direction : SortDirection)
    (a b : List String) : Bool :=
  cellCmp direction (a.getD sort_col_index "") (b.getD sort_col_index "") ≠ .gt

/-- One step of a stable insertion sort: insert `a` before the first element
`b` with `le a b`. -/
def stableInsert {α : Type} (le : α → α → Bool) (a : α) : List α → List α
  | [] => [a]
  | b :: l => if le a b then a :: b :: l else b :: stableInsert le a l

/-- `Vec::sort_by` performs a stable sort with respect to the comparator;
it is modelled by a stable insertion sort (for any total preorder the two
produce the same list). -/
def stableSort {α : Type} (le : α → α → Bool) : List α → List α
  | [] => []
  | a :: l => stableInsert le a (stableSort le l)

/-- `SqlExecutor::apply_order_by` (executor.rs lines 511–541): find the sort
column among the headers (error if absent), then sort the rows with the
numeric-fast-path comparator. -/
def apply_order_by (rows : List (List String)) (headers : List String)
    (order_by : OrderBy) : Except DbError (List (List String)) :=
  match headers.findIdx? (fun col => col = order_by.column) with
  | none =>
    .error (.sqlError ("ORDER BY列 " ++ order_by.column ++ " 不存在于结果集中"))
  | some sort_col_index =>
    .ok (stableSort (rowLe sort_col_index order_by.direction) rows)

/-- The `SqlStatement::Select` arm (executor.rs lines 312–360) applied to
the (existing) target table, returning the headers and the formatted result
rows instead of printing them. -/
def execSelect (t : Table) (columns : List String)
    (where_clause : Option WhereClause) (order_by : Option OrderBy) :
    Except DbError (List String × List (List String)) := do
  -- `columns.len() == 1 && columns[0] == "*"`
  let is_select_all := columns.length == 1 && columns.getD 0 "" == "*"
  let display_columns :=
    if is_select_all then t.columns.map (fun c => c.name) else columns
  let selected_rows ←
    selectRows t.columns is_select_all display_columns where_clause t.rows
  match order_by with
  | some ob => do
    let sorted ← apply_order_by selected_rows display_columns ob
    pure (display_columns, sorted)
  | none => pure (display_columns, selected_rows)

/-! ## Formatter (`src/core/sql/formatter.rs`) -/

/-- The cell substitution of `TableFormatter::format_row` (line 75): a cell
whose textual value is exactly `NULL` is displayed as the empty string. -/
def displayCell (cell : String) : String :=
  if cell = "NULL" then "" else cell

/-- `TableFormatter::format_row` (formatter.rs lines 68–94): one space, the
displayed cell, padding to the column width plus one trailing space, then a
`|`; cells beyond the width list are skipped.  The width is at least the
displayed cell's length on every call made by `format_table`. -/
def format_row (cells : List String) (widths : List Nat) : String :=
  "|" ++ String.join ((cells.zip widths).map (fun cw =>
    let display_cell := displayCell cw.1
    let padding := cw.2 - display_cell.length
    " " ++ display_cell ++ String.mk (List.replicate (padding + 1) ' ') ++ "|"))

/-- The width-update loop of `TableFormatter::format_table` (lines 19–27)
for one row: a `"NULL"` cell counts as width 0. -/
def updateWidths : List Nat → List String → List Nat
  | ws, [] => ws
  | [], _ => []
  | w :: ws, cell :: cells =>
    (max w (if cell = "NULL" then 0 else cell.length)) :: updateWidths ws cells

/-- The column widths computed by `TableFormatter::format_table`: header
lengths, raised by the data cells, with a minimum of 3. -/
def columnWidths (headers : List String) (rows : List (List String)) : List Nat :=
  ((rows.foldl updateWidths (headers.map String.length)).map (fun w => max w 3))

/-- The separator line of `TableFormatter::format_table` (lines 39–53). -/
def separatorLine (widths : List Nat) : String :=
  "|" ++ String.join (widths.map (fun w =>
    " " ++ String.mk (List.replicate w '-') ++ " " ++ "|"))

/-- `TableFormatter::format_table` (formatter.rs lines 7–65). -/
def format_table (headers : List String) (rows : List (List String)) : String :=
  let max_widths := columnWidths headers rows
  format_row headers max_widths ++ "\n" ++ separatorLine max_widths ++ "\n" ++
    String.join (rows.map (fun row => format_row row max_widths ++ "\n"))

/-! ## Lexer (`src/core/sql/lexer.rs`) -/

/-- `enum Token` of `lexer.rs`.  The keyword list has no variant for `NOT`;
the lexer emits `NOT` as `Identifier`. -/
inductive Token where
  | Create | Table | Drop | Insert | Into | Values | Update | Set | Delete
  | From | Where | Select | Primary | Key | And | Or | Is | Null
  | Order | By | Asc | Desc
  | Eq | Ne | Gt | Lt | Ge | Le
  | Plus | Minus | Asterisk | Slash
  | Comma | Semicolon | LParen | RParen | Star
  | Identifier (s : String)
  | StringLit (s : String)
  | Number (n : Int)
  | Comment (s : String)
  | MultiLineComment (s : String)
deriving Repr, DecidableEq

/-- The character class of `Lexer::read_identifier`: alphanumeric or
underscore (ASCII here; the claims' inputs are ASCII). -/
def isIdentChar (ch : Char) : Bool :=
  ch.isAlphanum ∨ ch = '_'

/-- The keyword dispatch of `Lexer::tokenize` (lexer.rs lines 105–129):
case-insensitive via `to_uppercase` (character-wise upper-casing, which on
ASCII input matches Rust); an unmatched word — including `NOT` — becomes
`Identifier`. -/
def keywordToken (identifier : String) : Token :=
  match String.mk (identifier.data.map Char.toUpper) with
  | "CREATE" => .Create
  | "TABLE" => .Table
  | "DROP" => .Drop
  | "INSERT" => .Insert
  | "INTO" => .Into
  | "VALUES" => .Values
  | "UPDATE" => .Update
  | "SET" => .Set
  | "DELETE" => .Delete
  | "FROM" => .From
  | "WHERE" => .Where
  | "SELECT" => .Select
  | "PRIMARY" => .Primary
  | "KEY" => .Key
  | "AND" => .And
  | "OR" => .Or
  | "IS" => .Is
  | "NULL" => .Null
  | "ORDER" => .Order
  | "BY" => .By
  | "ASC" => .Asc
  | "DESC" => .Desc
  | _ => .Identifier identifier

/-- `Lexer::read_number` followed by `number.parse().unwrap_or(0)`: the
digit run is parsed as `i32`, and a parse failure (overflow) yields 0. -/
def parseNumberToken (digits : String) : Int :=
  match digitsToNat? digits.data with
  | some n => if n ≤ 2147483647 then (n : Int) else 0
  | none => 0

/-- Termination helper for the lexer loop: dropping a prefix never lengthens
the list. -/
theorem length_dropWhile_le (p : Char → Bool) :
    ∀ l : List Char, (l.dropWhile p).length ≤ l.length
  | [] => by simp [List.dropWhile]
  | c :: l => by
    simp only [List.dropWhile]
    split
    · exact Nat.le_trans (length_dropWhile_le p l) (Nat.le_succ _)
    · exact Nat.le_refl _

mutual

/-- The main loop of `Lexer::tokenize` (lexer.rs lines 73–183), embedded on
the remaining character list.  Branch order follows the source: whitespace,
`--` comment, `/*` comment, identifier/keyword, number, string, operators,
unknown character. -/
def tokenizeAux : List Char → Except DbError (List Token)
  | [] => .ok []
  | c :: rest =>
    if c.isWhitespace then tokenizeAux rest
    else if c = '-' ∧ rest.head? = some '-' then
      -- `read_until('\n')` stops at the newline without consuming it
      let comment := String.mk (rest.tail.takeWhile (fun ch => ch ≠ '\n'))
      match tokenizeAux (rest.tail.dropWhile (fun ch => ch ≠ '\n')) with
      | .ok ts => .ok (.Comment comment :: ts)
      | .error e => .error e
    else if c = '/' ∧ rest.head? = some '*' then
      mlcAux "" rest.tail
    else if c.isAlpha then
      let identifier := String.mk (c :: rest.takeWhile isIdentChar)
      match tokenizeAux (rest.dropWhile isIdentChar) with
      | .ok ts => .ok (keywordToken identifier :: ts)
      | .error e => .error e
    else if c.isDigit then
      let digits := String.mk (c :: rest.takeWhile Char.isDigit)
      match tokenizeAux (rest.dropWhile Char.isDigit) with
      | .ok ts => .ok (.Number (parseNumberToken digits) :: ts)
      | .error e => .error e
    else if c = '\'' ∨ c = '"' then
      -- `read_until(quote)` stops at the quote or at end of input; the
      -- closing quote, when present, is then consumed
      let string := String.mk (rest.takeWhile (fun ch => ch ≠ c))
      match tokenizeAux (rest.dropWhile (fun ch => ch ≠ c)).tail with
      | .ok ts => .ok (.StringLit string :: ts)
      | .error e => .error e
    else if c = '=' then consTok .Eq rest
    else if c = '!' ∧ rest.head? = some '=' then consTok .Ne rest.tail
    else if c = '>' ∧ rest.head? = some '=' then consTok .Ge rest.tail
    else if c = '>' then consTok .Gt rest
    else if c = '<' ∧ rest.head? = some '=' then consTok .Le rest.tail
    else if c = '<' then consTok .Lt rest
    else if c = ',' then consTok .Comma rest
    else if c = ';' then consTok .Semicolon rest
    else if c = '(' then consTok .LParen rest
    else if c = ')' then consTok .RParen rest
    else if c = '*' then consTok .Asterisk rest
    else if c = '+' then consTok .Plus rest
    else if c = '-' then consTok .Minus rest
    else if c = '/' then consTok .Slash rest
    else .error (.sqlError ("未知字符: " ++ String.mk [c]))
termination_by l => 2 * l.length
decreasing_by
  all_goals simp_wf
  all_goals
    first
    | omega
    | (have h1 := length_dropWhile_le (fun ch => decide (ch ≠ '\n')) rest.tail
       have h2 : rest.tail.length ≤ rest.length := by
         cases rest <;> simp
       omega)
    | (have h2 : rest.tail.length ≤ rest.length := by
         cases rest <;> simp
       omega)
    | (have h1 := length_dropWhile_le isIdentChar rest
       omega)
    | (have h1 := length_dropWhile_le Char.isDigit rest
       omega)
    | (have h1 := length_dropWhile_le (fun ch => decide (ch ≠ c)) rest
       have h2 : (rest.dropWhile (fun ch => decide (ch ≠ c))).tail.length ≤
           (rest.dropWhile (fun ch => decide (ch ≠ c))).length := by
         cases rest.dropWhile (fun ch => decide (ch ≠ c)) <;> simp
       omega)
    | (have h1 := length_dropWhile_le (fun ch => !decide (ch = '\n')) rest.tail
       have h2 : rest.tail.length ≤ rest.length := by
         cases rest <;> simp
       omega)
    | (have h1 := length_dropWhile_le (fun ch => !decide (ch = c)) rest
       have h2 : (rest.dropWhile (fun ch => !decide (ch = c))).tail.length ≤
           (rest.dropWhile (fun ch => !decide (ch = c))).length := by
         cases rest.dropWhile (fun ch => !decide (ch = c)) <;> simp
       omega)

/-- Emit a single operator/punctuation token and continue. -/
def consTok (t : Token) (rest : List Char) : Except DbError (List Token) :=
  match tokenizeAux rest with
  | .ok ts => .ok (t :: ts)
  | .error e => .error e
termination_by 2 * rest.length + 1
decreasing_by
  all_goals simp_wf
  all_goals omega

/-- `Lexer::read_until_multiline_comment_end` (lexer.rs lines 254–271)
fused with the continuation of the main loop: scan for `*/` while the next
two characters exist; if the input ends first, the final character (when
present) is left unconsumed for the main loop. -/
def mlcAux (acc : String) : List Char → Except DbError (List Token)
  | c1 :: c2 :: r =>
    if c1 = '*' ∧ c2 = '/' then
      match tokenizeAux r with
      | .ok ts => .ok (.MultiLineComment acc :: ts)
      | .error e => .error e
    else mlcAux (acc.push c1) (c2 :: r)
  | l =>
    match tokenizeAux l with
    | .ok ts => .ok (.MultiLineComment acc :: ts)
    | .error e => .error e
termination_by l => 2 * l.length + 1
decreasing_by
  all_goals simp_wf
  all_goals omega

end

/-- `Lexer::tokenize` on a source string. -/
def tokenize (input : String) : Except DbError (List Token) :=
  tokenizeAux input.data

/-! ## Parser: the WHERE grammar (`src/core/sql/parser.rs`) -/

/-- Rust's `to_uppercase` on the ASCII input the parser compares against. -/
def rustToUpper (s : String) : String :=
  String.mk (s.data.map Char.toUpper)

/-- `Parser::parse_value` (parser.rs lines 347–355).  The parser state is
the list of tokens not yet consumed. -/
def parse_value : List Token → Except DbError (DataType × List Token)
  | .Number n :: rest => .ok (.int n, rest)
  | .StringLit s :: rest => .ok (.varchar s, rest)
  | .Null :: rest => .ok (.null, rest)
  | .Identifier ident :: rest =>
    if rustToUpper ident = "NULL" then .ok (.null, rest)
    else .error (.sqlError "期望值")
  | _ => .error (.sqlError "期望值")

/-- The comparison-operator dispatch of `Parser::parse_condition`
(parser.rs lines 715–723). -/
def parseCmpOp : List Token → Option (Operator × List Token)
  | .Eq :: rest => some (.eq, rest)
  | .Ne :: rest => some (.ne, rest)
  | .Gt :: rest => some (.gt, rest)
  | .Lt :: rest => some (.lt, rest)
  | .Ge :: rest => some (.ge, rest)
  | .Le :: rest => some (.le, rest)
  | _ => none

mutual

/-- `Parser::parse_or_condition` (parser.rs lines 631–645).  The `fuel`
argument only bounds the mutual recursion for Lean's termination checker;
successive same-level calls always drop at least one token, so the budget
of `3·n + 3` supplied by `parse_where_clause` can never run out on a list
of `n` tokens. -/
def parse_or_condition : Nat → List Token → Except DbError (WhereClause × List Token)
  | 0, _ => .error (.sqlError "递归深度超限")
  | fuel + 1, ts => do
    let (left, ts) ← parse_and_condition fuel ts
    match ts with
    | .Or :: rest => do
      let (right, ts') ← parse_or_condition fuel rest
      .ok (.or left right, ts')
    | _ => .ok (left, ts)

/-- `Parser::parse_and_condition` (parser.rs lines 647–661). -/
def parse_and_condition : Nat → List Token → Except DbError (WhereClause × List Token)
  | 0, _ => .error (.sqlError "递归深度超限")
  | fuel + 1, ts => do
    let (left, ts) ← parse_condition fuel ts
    match ts with
    | .And :: rest => do
      let (right, ts') ← parse_and_condition fuel rest
      .ok (.and left right, ts')
    | _ => .ok (left, ts)

/-- `Parser::parse_condition` (parser.rs lines 663–728): a parenthesised
condition, or a column name followed by `IS [NOT] NULL`, or a column name,
a comparison operator and a literal value (`parse_value`).  There is no
production in which the left- or right-hand side is an arithmetic
expression: after the column name, anything but `IS` or a comparison
operator fails with the expected-operator error. -/
def parse_condition : Nat → List Token → Except DbError (WhereClause × List Token)
  | 0, _ => .error (.sqlError "递归深度超限")
  | fuel + 1, ts =>
    match ts with
    | .LParen :: rest => do
      let (condition, ts) ← parse_or_condition fuel rest
      match ts with
      | .RParen :: ts' => .ok (condition, ts')
      | _ => .error (.sqlError "期望 RParen")
    | .Identifier column :: ts =>
      match ts with
      | .Is :: ts2 =>
        -- optional NOT, recognised as an identifier compared case-insensitively
        let (is_not, ts3) :=
          match ts2 with
          | .Identifier ident :: rest2 =>
            if rustToUpper ident = "NOT" then (true, rest2) else (false, ts2)
          | _ => (false, ts2)
        match ts3 with
        | .Null :: ts4 =>
          .ok (.simple column (if is_not then .isNotNull else .isNull) .null, ts4)
        | _ => .error (.sqlError "期望NULL关键字")
      | _ =>
        match parseCmpOp ts with
        | some (operator, ts2) => do
          let (value, ts3) ← parse_value ts2
          .ok (.simple column operator value, ts3)
        | none => .error (.sqlError "期望操作符")
    | _ => .error (.sqlError "期望列名")

end

/-- `Parser::parse_where_clause` (parser.rs lines 625–629): consume the
`WHERE` token, then parse an or-condition. -/
def parse_where_clause : List Token → Except DbError (WhereClause × List Token)
  | .Where :: rest => parse_or_condition (3 * rest.length + 3) rest
  | _ :: _ => .error (.sqlError "期望 Where")
  | [] => .error (.sqlError "期望 Where, 但已到结尾")

/-! ## Supporting lemmas -/

/-- A successful `findIdx?` returns an in-range index whose element
satisfies the predicate. -/
theorem findIdx?_some_prop {α : Type} (p : α → Bool) :
    ∀ (l : List α) (s i : Nat), l.findIdx? p s = some i →
      s ≤ i ∧ i - s < l.length ∧ ∃ a, l.get? (i - s) = some a ∧ p a = true := by
  intro l
  induction l with
  | nil => intro s i h; simp [List.findIdx?] at h
  | cons x xs ih =>
    intro s i h
    rw [List.findIdx?_cons] at h
    split at h
    · cases h
      exact ⟨Nat.le_refl _, by simp, x, by simp, by assumption⟩
    · obtain ⟨h1, h2, a, h3, h4⟩ := ih (s + 1) i h
      refine ⟨by omega, by simp only [List.length_cons]; omega, a, ?_, h4⟩
      have he : i - s = (i - (s + 1)) + 1 := by omega
      rw [he]
      simpa using h3

/-- `findIdx?` fails when no element satisfies the predicate. -/
theorem findIdx?_eq_none_of {α : Type} (p : α → Bool) :
    ∀ (l : List α) (s : Nat), (∀ a ∈ l, p a = false) → l.findIdx? p s = none := by
  intro l
  induction l with
  | nil => intro s _; simp [List.findIdx?]
  | cons x xs ih =>
    intro s h
    rw [List.findIdx?_cons]
    have hx : p x = false := h x (by simp)
    simp only [hx]
    simpa using ih (s + 1) (fun a ha => h a (by simp [ha]))

/-- `Table::insert_row` either fails leaving the table untouched, or
appends exactly the given row. -/
theorem insert_row_cases (t : Table) (row : List DataType) :
    (∃ e, t.validate_row row = .error e ∧ t.insert_row row = (.error e, t)) ∨
    (t.validate_row row = .ok () ∧
      t.insert_row row = (.ok (), { t with rows := t.rows ++ [row] })) := by
  unfold Table.insert_row
  cases h : t.validate_row row with
  | error e => exact .inl ⟨e, rfl, by simp⟩
  | ok u => cases u; exact .inr ⟨rfl, by simp⟩

/-- Pointwise characterisation of `zip`: equal positions pair up. -/
theorem get?_zip_of_get? {α β : Type} :
    ∀ (l1 : List α) (l2 : List β) (i : Nat) (a : α) (b : β),
      l1.get? i = some a → l2.get? i = some b →
      (l1.zip l2).get? i = some (a, b) := by
  intro l1
  induction l1 with
  | nil => intro l2 i a b h; simp at h
  | cons x xs ih =>
    intro l2 i a b h1 h2
    cases l2 with
    | nil => simp at h2
    | cons y ys =>
      cases i with
      | zero => simp_all
      | succ n => simpa using ih ys n a b (by simpa using h1) (by simpa using h2)

/-- Positions the full-row loop never writes keep their accumulator value. -/
theorem buildFullRowAux_get?_skip (tcols : List Column) :
    ∀ (pairs : List (String × DataType)) (acc : List DataType) (j : Nat),
      (∀ cv ∈ pairs, tcols.findIdx? (fun c => c.name = cv.1) ≠ some j) →
      (buildFullRowAux tcols pairs acc).get? j = acc.get? j := by
  intro pairs
  induction pairs with
  | nil => intro acc j _; rfl
  | cons cv rest ih =>
    intro acc j h
    simp only [buildFullRowAux]
    cases hf : tcols.findIdx? (fun c => c.name = cv.1) with
    | none => exact ih acc j (fun cv' h' => h cv' (List.mem_cons_of_mem _ h'))
    | some ci =>
      rw [ih (acc.set ci cv.2) j (fun cv' h' => h cv' (List.mem_cons_of_mem _ h'))]
      have hne : ci ≠ j := fun he => h cv (List.mem_cons_self _ _) (he ▸ hf)
      rw [List.get?_set]
      simp [hne]

/-- The full-row loop writes the value paired with a column name at the
first position carrying that name, provided the listed names are distinct. -/
theorem buildFullRowAux_get?_written (tcols : List Column) :
    ∀ (pairs : List (String × DataType)) (acc : List DataType) (j : Nat)
      (c : String) (v : DataType),
      acc.length = tcols.length →
      (pairs.map Prod.fst).Nodup →
      (c, v) ∈ pairs →
      tcols.findIdx? (fun col => col.name = c) = some j →
      (buildFullRowAux tcols pairs acc).get? j = some v := by
  intro pairs
  induction pairs with
  | nil => intro acc j c v _ _ hmem _; simp at hmem
  | cons cv rest ih =>
    intro acc j c v hlen hnd hmem hfind
    rcases List.mem_cons.mp hmem with heq | hmem'
    · subst heq
      simp only [buildFullRowAux, hfind]
      obtain ⟨-, hj, a0, ha0, ha0p⟩ := findIdx?_some_prop _ tcols 0 j hfind
      simp only [Nat.sub_zero] at hj ha0
      rw [buildFullRowAux_get?_skip tcols rest (acc.set j v) j ?later]
      · rw [List.get?_set]
        have hjl : j < acc.length := by omega
        have : acc.get? j ≠ none := by
          intro hcon
          rw [List.get?_eq_none] at hcon
          omega
        cases hacc : acc.get? j with
        | none => exact absurd hacc this
        | some w => simp [hacc]
      case later =>
        intro cv' h' hcon
        obtain ⟨-, -, a1, ha1, ha1p⟩ := findIdx?_some_prop _ tcols 0 j hcon
        simp only [Nat.sub_zero] at ha1
        rw [ha0] at ha1
        cases ha1
        have : cv'.1 = c := by
          have h1 : a0.name = c := by simpa using ha0p
          have h2 : a0.name = cv'.1 := by simpa using ha1p
          rw [← h1, h2]
        have : c ∈ rest.map Prod.fst := this ▸ List.mem_map_of_mem _ h'
        have hnotc : c ∉ rest.map Prod.fst := by
          simpa using (List.nodup_cons.mp hnd).1
        exact hnotc this
    · simp only [buildFullRowAux]
      cases hf : tcols.findIdx? (fun col => col.name = cv.1) with
      | none =>
        exact ih acc j c v hlen (List.nodup_cons.mp hnd).2 hmem' hfind
      | some ci =>
        exact ih (acc.set ci cv.2) j c v (by simpa using hlen)
          (List.nodup_cons.mp hnd).2 hmem' hfind

/-- Inserting with `stableInsert` is a permutation of consing. -/
theorem stableInsert_perm {α : Type} (le : α → α → Bool) (a : α) :
    ∀ l : List α, (stableInsert le a l).Perm (a :: l) := by
  intro l
  induction l with
  | nil => simp [stableInsert]
  | cons b l ih =>
    simp only [stableInsert]
    split
    · exact List.Perm.refl _
    · exact (ih.cons b).trans (List.Perm.swap a b l)

/-- `stableSort` permutes its input. -/
theorem stableSort_perm {α : Type} (le : α → α → Bool) :
    ∀ l : List α, (stableSort le l).Perm l := by
  intro l
  induction l with
  | nil => exact List.Perm.refl _
  | cons a l ih => exact (stableInsert_perm le a _).trans (ih.cons a)

/-- `stableInsert` preserves sortedness, given totality and transitivity of
the comparator on the values involved. -/
theorem pairwise_stableInsert {α : Type} (le : α → α → Bool) (a : α) :
    ∀ l : List α,
      (∀ b ∈ l, le a b = true ∨ le b a = true) →
      (∀ b ∈ l, ∀ c ∈ l, le a b = true → le b c = true → le a c = true) →
      l.Pairwise (fun x y => le x y = true) →
      (stableInsert le a l).Pairwise (fun x y => le x y = true) := by
  intro l
  induction l with
  | nil => intro _ _ _; simp [stableInsert]
  | cons b l ih =>
    intro htot htrans hp
    simp only [stableInsert]
    by_cases hab : le a b = true
    · rw [if_pos hab]
      refine List.Pairwise.cons ?_ hp
      intro x hx
      rcases List.mem_cons.mp hx with rfl | hx'
      · exact hab
      · exact htrans b (by simp) x (by simp [hx'])
          hab (List.rel_of_pairwise_cons hp hx')
    · rw [if_neg (by simpa using hab)]
      have hba : le b a = true := by
        rcases htot b (by simp) with h | h
        · exact absurd h hab
        · exact h
      refine List.Pairwise.cons ?_ ?_
      · intro x hx
        rcases List.mem_cons.mp ((stableInsert_perm le a l).mem_iff.mp hx) with rfl | hx'
        · exact hba
        · exact List.rel_of_pairwise_cons hp hx'
      · exact ih (fun c hc => htot c (by simp [hc]))
          (fun c hc d hd => htrans c (by simp [hc]) d (by simp [hd]))
          (List.Pairwise.sublist (List.sublist_cons_self b l) hp)

/-- `stableSort` sorts, given totality and transitivity of the comparator
on the list's elements. -/
theorem pairwise_stableSort {α : Type} (le : α → α → Bool) :
    ∀ l : List α,
      (∀ a ∈ l, ∀ b ∈ l, le a b = true ∨ le b a = true) →
      (∀ a ∈ l, ∀ b ∈ l, ∀ c ∈ l, le a b = true → le b c = true → le a c = true) →
      (stableSort le l).Pairwise (fun x y => le x y = true) := by
  intro l
  induction l with
  | nil => intro _ _; simp [stableSort]
  | cons a l ih =>
    intro htot htrans
    simp only [stableSort]
    have hmem : ∀ b ∈ stableSort le l, b ∈ l :=
      fun b hb => (stableSort_perm le l).mem_iff.mp hb
    refine pairwise_stableInsert le a (stableSort le l)
      (fun b hb => htot a (by simp) b (by simp [hmem b hb]))
      (fun b hb c hc => htrans a (by simp) b (by simp [hmem b hb]) c (by simp [hmem c hc]))
      (ih (fun x hx y hy => htot x (by simp [hx]) y (by simp [hy]))
        (fun x hx y hy z hz =>
          htrans x (by simp [hx]) y (by simp [hy]) z (by simp [hz])))

/-- `rustIntCompare` is swap-antisymmetric in its `gt`/`lt` results. -/
theorem rustIntCompare_gt_iff (a b : Int) :
    rustIntCompare a b = .gt ↔ rustIntCompare b a = .lt := by
  unfold rustIntCompare
  rcases lt_trichotomy a b with h | rfl | h
  · have h2 : ¬ b < a := by omega
    have h3 : a ≠ b := by omega
    have h4 : b ≠ a := by omega
    simp [h, h2, h3, h4]
  · simp
  · have h2 : ¬ a < b := by omega
    have h3 : a ≠ b := by omega
    have h4 : b ≠ a := by omega
    simp [h, h2, h3, h4]

/-- `charListCompare` is swap-antisymmetric in its `gt`/`lt` results. -/
theorem charListCompare_gt_iff :
    ∀ a b : List Char, charListCompare a b = .gt ↔ charListCompare b a = .lt := by
  intro a
  induction a with
  | nil => intro b; cases b <;> simp [charListCompare]
  | cons x xs ih =>
    intro b
    cases b with
    | nil => simp [charListCompare]
    | cons y ys =>
      simp only [charListCompare]
      by_cases h1 : x < y
      · have h2 : ¬ y < x := lt_asymm h1
        simp [h1, h2]
      · by_cases h2 : y < x
        · simp [h1, h2]
        · simp [h1, h2, ih ys]

/-- The ORDER BY cell comparator is swap-antisymmetric. -/
theorem cellCmp_gt_iff (dir : SortDirection) (x y : String) :
    cellCmp dir x y = .gt ↔ cellCmp dir y x = .lt := by
  unfold cellCmp
  cases hx : parseI64 x <;> cases hy : parseI64 y <;> cases dir <;>
    simp [rustStrCompare, rustIntCompare_gt_iff, charListCompare_gt_iff]

/-- The ORDER BY row comparator is total. -/
theorem rowLe_total (k : Nat) (dir : SortDirection) (a b : List String) :
    rowLe k dir a b = true ∨ rowLe k dir b a = true := by
  unfold rowLe
  simp only [decide_eq_true_eq]
  by_cases h : cellCmp dir (a.getD k "") (b.getD k "") = .gt
  · right
    intro hcon
    rw [(cellCmp_gt_iff dir (a.getD k "") (b.getD k "")).mp h] at hcon
    cases hcon
  · left
    exact h

/-- Every row of a `Select` result set is the projection (or, for
`SELECT *`, the display image) of some table row. -/
theorem selectRows_mem (tcols : List Column) (is_all : Bool)
    (dcols : List String) (w : Option WhereClause) :
    ∀ (rows : List (List DataType)) (rs : List (List String)),
      selectRows tcols is_all dcols w rows = .ok rs →
      ∀ r ∈ rs, ∃ row, row ∈ rows ∧
        r = (if is_all then row.map DataType.display else projectRow tcols dcols row) := by
  intro rows
  induction rows with
  | nil =>
    intro rs h r hr
    unfold selectRows at h
    cases h
    simp at hr
  | cons row rest ih =>
    intro rs h r hr
    unfold selectRows at h
    cases hk : evalOptWhere row w tcols with
    | error e => rw [hk] at h; simp [Bind.bind, Except.bind] at h
    | ok keep =>
      rw [hk] at h
      cases hrest : selectRows tcols is_all dcols w rest with
      | error e =>
        rw [hrest] at h
        simp [Bind.bind, Except.bind] at h
      | ok rest' =>
        rw [hrest] at h
        simp only [Bind.bind, Except.bind, pure, Except.pure] at h
        cases h
        cases keep with
        | false =>
          rw [if_neg (by simp)] at hr
          obtain ⟨row', hrow', hr'⟩ := ih rest' hrest r hr
          exact ⟨row', by simp [hrow'], hr'⟩
        | true =>
          rw [if_pos rfl] at hr
          rcases List.mem_cons.mp hr with rfl | hr'
          · exact ⟨row, by simp, rfl⟩
          · obtain ⟨row', hrow', hr''⟩ := ih rest' hrest r hr'
            exact ⟨row', by simp [hrow'], hr''⟩

/-- With no WHERE clause, `Select` keeps every row. -/
theorem selectRows_none (tcols : List Column) (is_all : Bool)
    (dcols : List String) :
    ∀ rows, selectRows tcols is_all dcols none rows =
      .ok (rows.map (fun row =>
        if is_all then row.map DataType.display else projectRow tcols dcols row)) := by
  intro rows
  induction rows with
  | nil => rfl
  | cons row rest ih =>
    unfold selectRows
    rw [show evalOptWhere row none tcols = .ok true from rfl, ih]
    simp [Bind.bind, Except.bind, pure, Except.pure]

/-! ## Claims -/

/-- C6: For every single-row INSERT that fails — whether by type mismatch,
VARCHAR length violation, non-null violation, or primary-key duplication —
the target table's row list is unchanged: the row count after the failed
execution equals the row count before it. -/
theorem insert_failure_leaves_rows_unchanged (t : Table) (values : List DataType)
    (e : DbError) (t2 : Table) (h : execInsert t values = (.error e, t2)) :
    t2.rows.length = t.rows.length := by
  unfold execInsert at h
  split at h
  · cases h; rfl
  · split at h
    · cases h; rfl
    · rcases insert_row_cases t values with ⟨e', _, hrow⟩ | ⟨_, hrow⟩ <;>
        rw [hrow] at h <;> cases h
      rfl

/-- Witness for C6: a duplicate-primary-key insert fails and the row count
stays 1. -/
theorem insert_failure_leaves_rows_unchanged_witness :
    execInsert
        ⟨"t", [⟨"id", .int none, true, true⟩, ⟨"n", .varchar 10, true, false⟩],
          [[.int 1, .varchar "a"]]⟩
        [.int 1, .varchar "b"] =
      (.error (.typeError (.primaryKeyViolation "1")),
        ⟨"t", [⟨"id", .int none, true, true⟩, ⟨"n", .varchar 10, true, false⟩],
          [[.int 1, .varchar "a"]]⟩) ∧
    (⟨"t", [⟨"id", .int none, true, true⟩, ⟨"n", .varchar 10, true, false⟩],
        [[.int 1, .varchar "a"]]⟩ : Table).rows.length =
      (⟨"t", [⟨"id", .int none, true, true⟩, ⟨"n", .varchar 10, true, false⟩],
        [[.int 1, .varchar "a"]]⟩ : Table).rows.length :=
  ⟨by decide,
    insert_failure_leaves_rows_unchanged
      ⟨"t", [⟨"id", .int none, true, true⟩, ⟨"n", .varchar 10, true, false⟩],
        [[.int 1, .varchar "a"]]⟩
      [.int 1, .varchar "b"]
      (.typeError (.primaryKeyViolation "1"))
      ⟨"t", [⟨"id", .int none, true, true⟩, ⟨"n", .varchar 10, true, false⟩],
        [[.int 1, .varchar "a"]]⟩
      (by decide)⟩

/-- C7: WHERE evaluation short-circuits: for every row and condition
`A AND B`, if A evaluates to false on that row, evaluation returns false
without evaluating B, so an error that B alone would raise is not surfaced;
symmetrically, for `A OR B`, if A evaluates to true, evaluation returns
true without evaluating B. -/
theorem where_short_circuit (row : List DataType) (columns : List Column)
    (a b : WhereClause) :
    (evaluate_where_clause row a columns = .ok false →
      evaluate_where_clause row (.and a b) columns = .ok false) ∧
    (evaluate_where_clause row a columns = .ok true →
      evaluate_where_clause row (.or a b) columns = .ok true) := by
  constructor <;> intro h <;>
    simp [evaluate_where_clause, h, Bind.bind, Except.bind, pure, Except.pure]

/-- Witness for C7: on the row `[1]` of a table with single column `x`,
`A = (x = 2)` is false and `B` references a missing column, so `B` alone
errors, yet `A AND B` evaluates to false; dually `x = 1 OR B` is true. -/
theorem where_short_circuit_witness :
    evaluate_where_clause [.int 1]
        (.simple "missing" .eq (.int 1)) [⟨"x", .int none, true, false⟩] =
      .error (.sqlError "列 missing 不存在") ∧
    evaluate_where_clause [.int 1]
        (.and (.simple "x" .eq (.int 2)) (.simple "missing" .eq (.int 1)))
        [⟨"x", .int none, true, false⟩] = .ok false ∧
    evaluate_where_clause [.int 1]
        (.or (.simple "x" .eq (.int 1)) (.simple "missing" .eq (.int 1)))
        [⟨"x", .int none, true, false⟩] = .ok true :=
  ⟨by decide,
    (where_short_circuit [.int 1] [⟨"x", .int none, true, false⟩]
        (.simple "x" .eq (.int 2)) (.simple "missing" .eq (.int 1))).1 (by decide),
    (where_short_circuit [.int 1] [⟨"x", .int none, true, false⟩]
        (.simple "x" .eq (.int 1)) (.simple "missing" .eq (.int 1))).2 (by decide)⟩

/-- C1: After every statement the SQL executor executes successfully, every
stored value is variant-compatible with its column's declared type and
respects VARCHAR(n) length — the claim states this holds in particular
after UPDATE.  The `Update` arm writes assignment values into row slots
without any validation, so the invariant is violated: updating the
`VARCHAR(2)` column of the row `["ab"]` to the six-character string
`"abcdef"` succeeds and leaves a row whose value fails
`matches_column_type` (and whose row fails `validate_row`). -/
theorem update_bypasses_validation :
    execUpdate ⟨"t", [⟨"a", .varchar 2, true, false⟩], [[.varchar "ab"]]⟩
        [("a", .varchar "abcdef")] none =
      (.ok (), ⟨"t", [⟨"a", .varchar 2, true, false⟩], [[.varchar "abcdef"]]⟩) ∧
    (DataType.varchar "abcdef").matches_column_type (.varchar 2) = false ∧
    Table.validate_row ⟨"t", [⟨"a", .varchar 2, true, false⟩], [[.varchar "abcdef"]]⟩
        [.varchar "abcdef"] =
      .error (.typeMismatch (.varchar 2) (.varchar "abcdef")) := by
  decide

/-- Counterexample to C2: a `Binary` addition whose left operand is `NULL`
does not evaluate to `NULL`; both evaluators fail with the
unsupported-operand-type error. -/
theorem binary_null_operand_counterexample :
    evaluate_expression_without_storage
        (.binary (.literal .null) .add (.literal (.int 1))) [] [] =
      .error (.sqlError "不支持的操作数类型") ∧
    evaluate_expression [] (.binary (.literal .null) .add (.literal (.int 1))) none "" =
      .error (.sqlError "不支持的操作数类型") ∧
    evaluate_expression_without_storage
        (.binary (.literal .null) .add (.literal (.int 1))) [] [] ≠
      .ok .null := by
  decide

/-- C2 (amended): For every `Binary` arithmetic expression, if either
operand evaluates to `NULL`, evaluation fails with the
unsupported-operand-type error (it does not yield `NULL`); a division whose
divisor evaluates to the integer zero or the float zero, with a numeric
dividend, fails with the division-by-zero arithmetic error.  Both the
storage-backed evaluator and the storage-free evaluator used by WHERE
behave this way. -/
theorem binary_null_or_zero_divisor (op : ArithmeticOperator) (l r : Expression)
    (row : List DataType) (columns : List Column) (storage : List Table)
    (orow : Option (List DataType)) (current_table : String) (v lv : DataType) :
    (evaluate_expression_without_storage l row columns = .ok .null →
      evaluate_expression_without_storage r row columns = .ok v →
      evaluate_expression_without_storage (.binary l op r) row columns =
        .error (.sqlError "不支持的操作数类型")) ∧
    (evaluate_expression_without_storage l row columns = .ok v →
      evaluate_expression_without_storage r row columns = .ok .null →
      evaluate_expression_without_storage (.binary l op r) row columns =
        .error (.sqlError "不支持的操作数类型")) ∧
    (evaluate_expression_without_storage l row columns = .ok lv →
      ((∃ a, lv = .int a) ∨ (∃ q, lv = .float q)) →
      (evaluate_expression_without_storage r row columns = .ok (.int 0) ∨
        evaluate_expression_without_storage r row columns = .ok (.float 0)) →
      evaluate_expression_without_storage (.binary l .divide r) row columns =
        .error (.sqlError "除数不能为零")) ∧
    (evaluate_expression storage l orow current_table = .ok .null →
      evaluate_expression storage r orow current_table = .ok v →
      evaluate_expression storage (.binary l op r) orow current_table =
        .error (.sqlError "不支持的操作数类型")) ∧
    (evaluate_expression storage l orow current_table = .ok v →
      evaluate_expression storage r orow current_table = .ok .null →
      evaluate_expression storage (.binary l op r) orow current_table =
        .error (.sqlError "不支持的操作数类型")) ∧
    (evaluate_expression storage l orow current_table = .ok lv →
      ((∃ a, lv = .int a) ∨ (∃ q, lv = .float q)) →
      (evaluate_expression storage r orow current_table = .ok (.int 0) ∨
        evaluate_expression storage r orow current_table = .ok (.float 0)) →
      evaluate_expression storage (.binary l .divide r) orow current_table =
        .error (.sqlError "除数不能为零")) := by
  refine ⟨?_, ?_, ?_, ?_, ?_, ?_⟩
  · intro hl hr
    cases v <;>
      simp [evaluate_expression_without_storage, hl, hr, binaryArith,
        Bind.bind, Except.bind]
  · intro hl hr
    cases v <;>
      simp [evaluate_expression_without_storage, hl, hr, binaryArith,
        Bind.bind, Except.bind]
  · intro hl hlv hr
    rcases hlv with ⟨a, rfl⟩ | ⟨q, rfl⟩ <;> rcases hr with hr | hr <;>
      simp [evaluate_expression_without_storage, hl, hr, binaryArith,
        Bind.bind, Except.bind]
  · intro hl hr
    cases v <;>
      simp [evaluate_expression, hl, hr, binaryArith, Bind.bind, Except.bind]
  · intro hl hr
    cases v <;>
      simp [evaluate_expression, hl, hr, binaryArith, Bind.bind, Except.bind]
  · intro hl hlv hr
    rcases hlv with ⟨a, rfl⟩ | ⟨q, rfl⟩ <;> rcases hr with hr | hr <;>
      simp [evaluate_expression, hl, hr, binaryArith, Bind.bind, Except.bind]

/-- Witness for C2 (amended): `NULL + 1` fails with the type error and
`4 / 0` fails with the arithmetic error. -/
theorem binary_null_or_zero_divisor_witness :
    evaluate_expression_without_storage
        (.binary (.literal .null) .add (.literal (.int 1))) [] [] =
      .error (.sqlError "不支持的操作数类型") ∧
    evaluate_expression_without_storage
        (.binary (.literal (.int 4)) .divide (.literal (.int 0))) [] [] =
      .error (.sqlError "除数不能为零") :=
  ⟨(binary_null_or_zero_divisor .add (.literal .null) (.literal (.int 1))
      [] [] [] none "" (.int 1) (.int 4)).1 (by decide) (by decide),
    (binary_null_or_zero_divisor .add (.literal (.int 4)) (.literal (.int 0))
      [] [] [] none "" (.int 1) (.int 4)).2.2.1 (by decide) (.inl ⟨4, rfl⟩)
      (.inl (by decide))⟩

/-- C3: The tokenizer is claimed to recognise float literals
`digits '.' digits`.  It does not: the digit reader stops at the `.`, no
token class carries a float, and the dispatch on `.` falls through to the
unknown-character error, so any input containing such a literal fails to
tokenize (while plain integers lex fine). -/
theorem float_literal_lexing_fails :
    tokenize "INSERT INTO f VALUES (1,3.14);" = .error (.sqlError "未知字符: .") ∧
    tokenize "SELECT 3.14;" = .error (.sqlError "未知字符: .") ∧
    tokenize "3.14" = .error (.sqlError "未知字符: .") ∧
    tokenize "314" = .ok [.Number 314] := by
  refine ⟨?_, ?_, ?_, ?_⟩ <;>
    simp [tokenize, tokenizeAux, consTok, keywordToken, isIdentChar,
      parseNumberToken, digitsToNat?, digitsToNat]

/-- C4: The WHERE-clause parser is claimed to accept the general condition
form `<Expr> <cmp> <Expr>`.  It does not: after the leading column name,
anything other than `IS` or a comparison operator fails with the
expected-operator error (shown on `id + 1 > 2`), while the classic
`<col> <cmp> <literal>` form parses; `WhereClause` has no variant that
could even represent an expression comparison. -/
theorem where_general_form_rejected :
    parse_condition 33 [.Identifier "id", .Plus, .Number 1, .Gt, .Number 2] =
      .error (.sqlError "期望操作符") ∧
    parse_where_clause [.Where, .Identifier "id", .Plus, .Number 1, .Gt, .Number 2] =
      .error (.sqlError "期望操作符") ∧
    parse_where_clause [.Where, .Identifier "id", .Gt, .Number 2] =
      .ok (.simple "id" .gt (.int 2), []) ∧
    tokenize "id + 1 > 2" =
      .ok [.Identifier "id", .Plus, .Number 1, .Gt, .Number 2] := by
  refine ⟨by decide, by decide, by decide, ?_⟩
  simp [tokenize, tokenizeAux, consTok, keywordToken, isIdentChar,
    parseNumberToken, digitsToNat?, digitsToNat]

/-- Counterexample to C9: the input `NOT` is tokenized as the generic
`Identifier` token, not as a dedicated keyword token (the `Token` type has
no `NOT` variant), also in keyword position inside `IS NOT NULL`. -/
theorem not_emitted_as_keyword_counterexample :
    tokenize "NOT" = .ok [.Identifier "NOT"] ∧
    tokenize "x IS NOT NULL" =
      .ok [.Identifier "x", .Is, .Identifier "NOT", .Null] := by
  constructor <;> simp [tokenize, tokenizeAux, keywordToken, isIdentChar]

/-- C9 (amended): For every input in which the word `NOT` appears between
tokens (in any letter case), the tokenizer emits it as a generic
`Identifier` token carrying its original spelling; the parser recognises it
by comparing the identifier case-insensitively, as in `IS NOT NULL`. -/
theorem not_tokenized_as_identifier :
    tokenize "NOT" = .ok [.Identifier "NOT"] ∧
    tokenize "not" = .ok [.Identifier "not"] ∧
    tokenize "Not" = .ok [.Identifier "Not"] ∧
    tokenize "nOt" = .ok [.Identifier "nOt"] ∧
    tokenize "noT" = .ok [.Identifier "noT"] ∧
    tokenize "NOt" = .ok [.Identifier "NOt"] ∧
    tokenize "NoT" = .ok [.Identifier "NoT"] ∧
    tokenize "nOT" = .ok [.Identifier "nOT"] ∧
    parse_condition 5 [.Identifier "a", .Is, .Identifier "nOt", .Null] =
      .ok (.simple "a" .isNotNull .null, []) ∧
    parse_condition 5 [.Identifier "a", .Is, .Identifier "NOT", .Null] =
      .ok (.simple "a" .isNotNull .null, []) := by
  refine ⟨?_, ?_, ?_, ?_, ?_, ?_, ?_, ?_, by decide, by decide⟩ <;>
    simp [tokenize, tokenizeAux, keywordToken, isIdentChar]

/-- C5: For every INSERT with an explicit column list into an existing
table, each supplied row is remapped to the table's column order — the i-th
value is stored in the column named by the i-th listed name, regardless of
the order in which the columns are listed — and every table column not
present in the list receives NULL.  (The listed names are assumed pairwise
distinct, and the arity check of the arm makes the value count match the
name count.) -/
theorem insert_with_columns_remap (t : Table) (columns : List String)
    (row_values : List DataType) (hnd : columns.Nodup)
    (hlen : row_values.length = columns.length) :
    (∀ i c v j, columns.get? i = some c → row_values.get? i = some v →
      t.columns.findIdx? (fun col => col.name = c) = some j →
      (buildFullRow t.columns columns row_values).get? j = some v) ∧
    (∀ j col, t.columns.get? j = some col → col.name ∉ columns →
      (buildFullRow t.columns columns row_values).get? j = some .null) ∧
    (∀ t', execInsertWithColumnsRow t columns row_values = (.ok (), t') →
      t'.rows = t.rows ++ [buildFullRow t.columns columns row_values]) := by
  refine ⟨?_, ?_, ?_⟩
  · intro i c v j h1 h2 hfind
    have hz := get?_zip_of_get? columns row_values i c v h1 h2
    refine buildFullRowAux_get?_written t.columns (columns.zip row_values)
      (List.replicate t.columns.length .null) j c v (by simp) ?_
      (List.get?_mem hz) hfind
    rw [List.map_fst_zip columns row_values (Nat.le_of_eq hlen.symm)]
    exact hnd
  · intro j col hj hnot
    unfold buildFullRow
    rw [buildFullRowAux_get?_skip]
    · obtain ⟨hlt, -⟩ := List.get?_eq_some.mp hj
      rw [List.get?_eq_getElem?]
      simp [List.getElem?_replicate, hlt]
    · intro cv hcv hcon
      obtain ⟨-, -, a, ha, hap⟩ := findIdx?_some_prop _ t.columns 0 j hcon
      simp only [Nat.sub_zero] at ha
      rw [hj] at ha
      cases ha
      have hname : col.name = cv.1 := by simpa using hap
      exact hnot (hname ▸ (List.of_mem_zip hcv).1)
  · intro t' h
    unfold execInsertWithColumnsRow at h
    rw [if_neg (by omega)] at h
    dsimp only at h
    split at h
    · simp at h
    · rcases insert_row_cases t (buildFullRow t.columns columns row_values) with
        ⟨e', _, hrow⟩ | ⟨_, hrow⟩ <;> rw [hrow] at h
      · simp at h
      · cases h; rfl

/-- Witness for C5: the spec's scenario 3,
`INSERT INTO b(price,id,name) VALUES (66,2,'Rust')` on
`b(id INT PRIMARY KEY, name VARCHAR(50), price INT NOT NULL)`: the value 66
lands in the `price` slot (index 2) and 2 in the `id` slot (index 0); with
only `id` listed, the unlisted second column receives NULL; and the
executed arm appends exactly the remapped row. -/
theorem insert_with_columns_remap_witness :
    (buildFullRow
        [⟨"id", .int none, true, true⟩, ⟨"name", .varchar 50, true, false⟩,
          ⟨"price", .int none, false, false⟩]
        ["price", "id", "name"] [.int 66, .int 2, .varchar "Rust"]).get? 2 =
      some (.int 66) ∧
    (buildFullRow
        [⟨"id", .int none, true, true⟩, ⟨"name", .varchar 50, true, false⟩,
          ⟨"price", .int none, false, false⟩]
        ["price", "id", "name"] [.int 66, .int 2, .varchar "Rust"]).get? 0 =
      some (.int 2) ∧
    (buildFullRow [⟨"id", .int none, true, false⟩, ⟨"extra", .varchar 5, true, false⟩]
        ["id"] [.int 7]).get? 1 = some .null ∧
    (⟨"b", [⟨"id", .int none, true, true⟩, ⟨"name", .varchar 50, true, false⟩,
        ⟨"price", .int none, false, false⟩],
      [[.int 2, .varchar "Rust", .int 66]]⟩ : Table).rows =
      (⟨"b", [⟨"id", .int none, true, true⟩, ⟨"name", .varchar 50, true, false⟩,
          ⟨"price", .int none, false, false⟩], []⟩ : Table).rows ++
        [buildFullRow
          [⟨"id", .int none, true, true⟩, ⟨"name", .varchar 50, true, false⟩,
            ⟨"price", .int none, false, false⟩]
          ["price", "id", "name"] [.int 66, .int 2, .varchar "Rust"]] :=
  ⟨(insert_with_columns_remap
      ⟨"b", [⟨"id", .int none, true, true⟩, ⟨"name", .varchar 50, true, false⟩,
        ⟨"price", .int none, false, false⟩], []⟩
      ["price", "id", "name"] [.int 66, .int 2, .varchar "Rust"]
      (by decide) (by decide)).1 0 "price" (.int 66) 2 (by decide) (by decide)
      (by decide),
    (insert_with_columns_remap
      ⟨"b", [⟨"id", .int none, true, true⟩, ⟨"name", .varchar 50, true, false⟩,
        ⟨"price", .int none, false, false⟩], []⟩
      ["price", "id", "name"] [.int 66, .int 2, .varchar "Rust"]
      (by decide) (by decide)).1 1 "id" (.int 2) 0 (by decide) (by decide)
      (by decide),
    (insert_with_columns_remap
      ⟨"b2", [⟨"id", .int none, true, false⟩, ⟨"extra", .varchar 5, true, false⟩], []⟩
      ["id"] [.int 7] (by decide) (by decide)).2.1 1
      ⟨"extra", .varchar 5, true, false⟩ (by decide) (by decide),
    (insert_with_columns_remap
      ⟨"b", [⟨"id", .int none, true, true⟩, ⟨"name", .varchar 50, true, false⟩,
        ⟨"price", .int none, false, false⟩], []⟩
      ["price", "id", "name"] [.int 66, .int 2, .varchar "Rust"]
      (by decide) (by decide)).2.2
      ⟨"b", [⟨"id", .int none, true, true⟩, ⟨"name", .varchar 50, true, false⟩,
        ⟨"price", .int none, false, false⟩],
        [[.int 2, .varchar "Rust", .int 66]]⟩
      (by decide)⟩

/-- C8: For every SELECT carrying an ORDER BY clause, the result rows are
sorted on the named column in the chosen direction using the numeric fast
path — when both compared cell strings parse as `i64` they are compared
numerically, otherwise as strings — and if the named column is absent from
the result's headers, execution fails with an error.  The sort output is a
permutation of the input, and it is pairwise-sorted under the code's
comparator whenever that comparator is transitive on the rows at hand
(it always is when the sort column is uniformly numeric or uniformly
non-numeric; mixed columns only guarantee adjacent sortedness, as for any
stable sort with a non-transitive comparator). -/
theorem order_by_sorts (rows : List (List String)) (headers : List String)
    (ob : OrderBy) :
    (headers.findIdx? (fun col => col = ob.column) = none →
      apply_order_by rows headers ob =
        .error (.sqlError ("ORDER BY列 " ++ ob.column ++ " 不存在于结果集中"))) ∧
    (∀ k, headers.findIdx? (fun col => col = ob.column) = some k →
      apply_order_by rows headers ob =
        .ok (stableSort (rowLe k ob.direction) rows) ∧
      (stableSort (rowLe k ob.direction) rows).Perm rows ∧
      ((∀ a ∈ rows, ∀ b ∈ rows, ∀ c ∈ rows,
          rowLe k ob.direction a b = true → rowLe k ob.direction b c = true →
          rowLe k ob.direction a c = true) →
        (stableSort (rowLe k ob.direction) rows).Pairwise
          (fun a b => rowLe k ob.direction a b = true))) := by
  constructor
  · intro h
    simp [apply_order_by, h]
  · intro k hk
    refine ⟨by simp [apply_order_by, hk], stableSort_perm _ _, fun htrans => ?_⟩
    exact pairwise_stableSort _ rows
      (fun a _ b _ => rowLe_total k ob.direction a b) htrans

/-- Witness for C8: the spec's scenario 5 (`ORDER BY v DESC` over the cells
30, 10, 20): the sort column is found at index 0, the output is the
descending list, a permutation of the input, and pairwise-sorted; a missing
sort column yields the error. -/
theorem order_by_sorts_witness :
    apply_order_by [["30"], ["10"], ["20"]] ["v"] ⟨"v", .desc⟩ =
      .ok (stableSort (rowLe 0 .desc) [["30"], ["10"], ["20"]]) ∧
    stableSort (rowLe 0 .desc) [["30"], ["10"], ["20"]] =
      [["30"], ["20"], ["10"]] ∧
    (stableSort (rowLe 0 .desc) [["30"], ["10"], ["20"]]).Perm
      [["30"], ["10"], ["20"]] ∧
    (stableSort (rowLe 0 .desc) [["30"], ["10"], ["20"]]).Pairwise
      (fun a b => rowLe 0 SortDirection.desc a b = true) ∧
    apply_order_by [["30"]] ["v"] ⟨"w", .asc⟩ =
      .error (.sqlError ("ORDER BY列 " ++ "w" ++ " 不存在于结果集中")) :=
  ⟨((order_by_sorts [["30"], ["10"], ["20"]] ["v"] ⟨"v", .desc⟩).2 0 (by decide)).1,
    by decide,
    ((order_by_sorts [["30"], ["10"], ["20"]] ["v"] ⟨"v", .desc⟩).2 0 (by decide)).2.1,
    ((order_by_sorts [["30"], ["10"], ["20"]] ["v"] ⟨"v", .desc⟩).2 0 (by decide)).2.2
      (by decide),
    (order_by_sorts [["30"]] ["v"] ⟨"w", .asc⟩).1 (by decide)⟩

/-- C10: For every Select with an explicit column list over an existing
table, if a listed column name matches no column of that table, execution
does not fail with an unknown-column error: every result row carries the
string `"NULL"` in that position, which the formatter then renders as a
blank cell. -/
theorem select_unknown_column_yields_null (t : Table) (columns : List String)
    (j : Nat) (c : String) (w : Option WhereClause) (ob : Option OrderBy)
    (hj : columns.get? j = some c)
    (hc : ∀ col ∈ t.columns, col.name ≠ c)
    (hnotall : (columns.length == 1 && columns.getD 0 "" == "*") = false) :
    (∀ row, (projectRow t.columns columns row).get? j = some "NULL") ∧
    (∀ res, execSelect t columns w ob = .ok res →
      ∀ r ∈ res.2, r.get? j = some "NULL") ∧
    execSelect t columns none none =
      .ok (columns, t.rows.map (projectRow t.columns columns)) ∧
    displayCell "NULL" = "" ∧
    format_row ["NULL"] [3] = "|     |" := by
  have hfind : t.columns.findIdx? (fun col => col.name = c) = none :=
    findIdx?_eq_none_of _ t.columns 0 (fun a ha => by simp [hc a ha])
  have hproj : ∀ row, (projectRow t.columns columns row).get? j = some "NULL" := by
    intro row
    unfold projectRow
    rw [List.get?_map, hj]
    simp [hfind]
  refine ⟨hproj, ?_, ?_, by decide, by decide⟩
  · intro res hres r hr
    unfold execSelect at hres
    rw [hnotall] at hres
    simp only [Bool.false_eq_true, if_false] at hres
    cases hsel : selectRows t.columns false columns w t.rows with
    | error e => rw [hsel] at hres; simp [Bind.bind, Except.bind] at hres
    | ok selected =>
      rw [hsel] at hres
      simp only [Bind.bind, Except.bind] at hres
      have hmem : r ∈ selected → r.get? j = some "NULL" := by
        intro hr'
        obtain ⟨row, -, hrow⟩ := selectRows_mem t.columns false columns w t.rows
          selected hsel r hr'
        rw [hrow, if_neg (by simp)]
        exact hproj row
      cases ob with
      | none =>
        cases hres
        exact hmem hr
      | some ob' =>
        unfold apply_order_by at hres
        dsimp only at hres
        cases hidx : columns.findIdx? (fun col => col = ob'.column) with
        | none => rw [hidx] at hres; simp at hres
        | some k =>
          rw [hidx] at hres
          simp only [Bind.bind, Except.bind, pure, Except.pure] at hres
          cases hres
          exact hmem ((stableSort_perm (rowLe k ob'.direction) selected).mem_iff.mp hr)
  · unfold execSelect
    rw [hnotall]
    simp only [Bool.false_eq_true, if_false]
    rw [selectRows_none]
    simp [Bind.bind, Except.bind, pure, Except.pure]

/-- Witness for C10: selecting `a, bogus` from a one-column table `t(a)`
holding the row `[5]` succeeds, and the result row is `["5", "NULL"]` with
`"NULL"` in the position of the unknown column `bogus`. -/
theorem select_unknown_column_yields_null_witness :
    (projectRow [⟨"a", .int none, true, false⟩] ["a", "bogus"] [.int 5]).get? 1 =
      some "NULL" ∧
    execSelect ⟨"t", [⟨"a", .int none, true, false⟩], [[.int 5]]⟩
        ["a", "bogus"] none none =
      .ok (["a", "bogus"],
        (⟨"t", [⟨"a", .int none, true, false⟩], [[.int 5]]⟩ : Table).rows.map
          (projectRow [⟨"a", .int none, true, false⟩] ["a", "bogus"])) ∧
    execSelect ⟨"t", [⟨"a", .int none, true, false⟩], [[.int 5]]⟩
        ["a", "bogus"] none none =
      .ok (["a", "bogus"], [["5", "NULL"]]) :=
  ⟨(select_unknown_column_yields_null
      ⟨"t", [⟨"a", .int none, true, false⟩], [[.int 5]]⟩ ["a", "bogus"]
      1 "bogus" none none (by decide) (by decide) (by decide)).1 [.int 5],
    (select_unknown_column_yields_null
      ⟨"t", [⟨"a", .int none, true, false⟩], [[.int 5]]⟩ ["a", "bogus"]
      1 "bogus" none none (by decide) (by decide) (by decide)).2.2.1,
    by decide⟩

end SipDb
